import Mathlib

/-!
Shallow embedding of the transaction-data generator in
`scripts/generate_data.py`.

Modelling conventions:
* Randomness is made explicit: every call of a sampling primitive in the
  Python code becomes an explicit parameter (a draw), constrained by the
  contract of the primitive (`random.randint(a, b)` yields an integer in
  `[a, b]`, `random.random()` yields a number in `[0, 1)`,
  `random.choice(l)` yields an index `< l.length`, `random.uniform(a, b)`
  is modelled as `a + (b - a) * r` with `r` in `[0, 1)`).
* Timestamps are modelled as integer seconds (the Python code formats
  `datetime` values with second granularity and all offsets are whole
  seconds, so the `strftime` rendering is order- and value-faithful).
* Amounts are modelled as rationals; `round(x, 2)` is modelled as rounding
  to the nearest multiple of `1/100`.
* `int(NUM_TRANSACTIONS * 0.02)` is modelled as natural floor division by
  50, the exact value of `floor(N * 0.02)`.
-/

namespace GenerateData

/-! ### Decimal strings, `str(i)` and `str.zfill` -/

/-- The character for a decimal digit, `chr(48 + d)`. -/
def digitChar (d : ℕ) : Char := Char.ofNat (48 + d)

/-- Fuel-driven most-significant-first decimal digits of a natural number. -/
def digitsAux : ℕ → ℕ → List Char
  | 0, _ => []
  | fuel + 1, n =>
    if n < 10 then [digitChar n]
    else digitsAux fuel (n / 10) ++ [digitChar (n % 10)]

/-- The decimal representation of `n`, as Python `str(n)` produces it. -/
def natStr (n : ℕ) : List Char := digitsAux (n + 1) n

/-- Python `s.zfill(w)`: left-pad with the zero character to width `w`. -/
def zfill (w : ℕ) (s : List Char) : List Char :=
  List.replicate (w - s.length) '0' ++ s

/-! ### The closed enumerations of the script -/

def ACCOUNT_IDS : List String :=
  (List.range' 1 500).map (fun i => "ACC" ++ String.mk (zfill 3 (natStr i)))

def CURRENCIES : List String := ["USD", "EUR", "GBP", "JPY", "CNY"]

def TRANSACTION_TYPES : List String :=
  ["DEBIT", "CREDIT", "TRANSFER", "FEE", "DIVIDEND", "INTEREST"]

def CATEGORIES : List String :=
  ["SALARY", "PURCHASE", "TRANSFER", "INVESTMENT", "FEE", "DIVIDEND",
   "INTEREST", "REFUND", "PAYMENT", "WITHDRAWAL"]

def STATUSES : List String := ["COMPLETED", "PENDING", "FAILED", "REVERSED"]

def DESCRIPTIONS : List String :=
  ["Regular monthly payment", "Online purchase", "ATM withdrawal",
   "Wire transfer", "Direct deposit", "Card payment",
   "Investment transaction", "Fee charge", "Interest payment",
   "Dividend payment"]

/-! ### The three generators -/

/-- `generate_transaction_id(index)`:
`f'TXN{timestamp}{str(index).zfill(8)}'`, where `timestamp` is the current
date rendered `%Y%m%d` (here an explicit `dateStr` argument, since the
function reads the ambient clock). -/
def generate_transaction_id (dateStr : String) (index : ℕ) : String :=
  "TXN" ++ dateStr ++ String.mk (zfill 8 (natStr index))

/-- `generate_timestamp(base_date, days_back)`: the base moment minus a
delta of `d` days, `h` hours, `m` minutes, `s` seconds, where the draws
satisfy `d ∈ [0, days_back]`, `h ∈ [0, 23]`, `m ∈ [0, 59]`, `s ∈ [0, 59]`.
Times are integer seconds. -/
def generate_timestamp (base : ℤ) (days_back : ℕ) (d h m s : ℕ) : ℤ :=
  base - (d * 86400 + h * 3600 + m * 60 + s)

/-- `round(x, 2)`: round to the nearest multiple of `1/100`. -/
def round2 (x : ℚ) : ℚ := (round (100 * x) : ℤ) / 100

/-- `random.uniform(lo, hi)` driven by a unit draw `r ∈ [0, 1)`. -/
def uniform (lo hi : ℚ) (r : ℚ) : ℚ := lo + (hi - lo) * r

/-- `generate_amount()`: three-tier piecewise-uniform amount, driven by the
tier draw `u = random.random()` and the in-tier unit draw `r`. -/
def generate_amount (u r : ℚ) : ℚ :=
  if u < 7 / 10 then round2 (uniform 10 1000 r)
  else if u < 9 / 10 then round2 (uniform 1000 10000 r)
  else round2 (uniform 10000 100000 r)

/-! ### Records, draws and fault kinds -/

/-- One transaction record: the nine fields every dict literal in the
script populates. -/
structure Transaction where
  transaction_id : String
  account_id : String
  timestamp : ℤ
  amount : ℚ
  currency : String
  type : String
  category : String
  description : String
  status : String
deriving DecidableEq, Inhabited, Repr

/-- The random draws consumed while building one record (one field per
sampling call in the corresponding dict literal). -/
structure Draws where
  accountIdx : ℕ
  tsDays : ℕ
  tsHours : ℕ
  tsMinutes : ℕ
  tsSeconds : ℕ
  amountU : ℚ
  amountR : ℚ
  currencyIdx : ℕ
  typeIdx : ℕ
  categoryIdx : ℕ
  descriptionIdx : ℕ
  statusIdx : ℕ
  futureDays : ℕ
deriving DecidableEq, Inhabited, Repr

/-- The contracts of the sampling primitives feeding each draw:
`random.choice` indexes below the list length, `random.randint(a, b)` is
inclusive on both ends, `random.random()` is in `[0, 1)`. -/
def Draws.Ok (d : Draws) : Prop :=
  d.accountIdx < 500 ∧ d.tsDays ≤ 90 ∧ d.tsHours ≤ 23 ∧
  d.tsMinutes ≤ 59 ∧ d.tsSeconds ≤ 59 ∧
  0 ≤ d.amountU ∧ d.amountU < 1 ∧ 0 ≤ d.amountR ∧ d.amountR < 1 ∧
  d.currencyIdx < 5 ∧ d.typeIdx < 6 ∧ d.categoryIdx < 10 ∧
  d.descriptionIdx < 10 ∧ d.statusIdx < 4 ∧
  1 ≤ d.futureDays ∧ d.futureDays ≤ 30

instance (d : Draws) : Decidable d.Ok := by unfold Draws.Ok; infer_instance

/-- The five fault kinds of `create_invalid_transaction`. -/
inductive FaultKind where
  | missing_id
  | negative_amount
  | future_date
  | invalid_currency
  | missing_account
deriving DecidableEq, Inhabited, Repr

/-- `create_valid_transaction(index, base_date)`. -/
def create_valid_transaction (index : ℕ) (base : ℤ) (dateStr : String)
    (d : Draws) : Transaction :=
  { transaction_id := generate_transaction_id dateStr index
    account_id := ACCOUNT_IDS.getD d.accountIdx ""
    timestamp := generate_timestamp base 90 d.tsDays d.tsHours d.tsMinutes d.tsSeconds
    amount := generate_amount d.amountU d.amountR
    currency := CURRENCIES.getD d.currencyIdx ""
    type := TRANSACTION_TYPES.getD d.typeIdx ""
    category := CATEGORIES.getD d.categoryIdx ""
    description := DESCRIPTIONS.getD d.descriptionIdx ""
    status := STATUSES.getD d.statusIdx "" }

/-- `create_invalid_transaction(index, base_date)`, with the chosen fault
kind made explicit.  Each branch mirrors the corresponding dict literal:
every field is generated normally except the one the fault corrupts. -/
def create_invalid_transaction (index : ℕ) (base : ℤ) (dateStr : String)
    (fk : FaultKind) (d : Draws) : Transaction :=
  match fk with
  | .missing_id =>
    { create_valid_transaction index base dateStr d with transaction_id := "" }
  | .negative_amount =>
    { create_valid_transaction index base dateStr d with
        amount := -generate_amount d.amountU d.amountR }
  | .future_date =>
    { create_valid_transaction index base dateStr d with
        timestamp := base + d.futureDays * 86400 }
  | .invalid_currency =>
    { create_valid_transaction index base dateStr d with currency := "XXX" }
  | .missing_account =>
    { create_valid_transaction index base dateStr d with account_id := "" }

/-! ### Assembly: `generate_transactions` -/

/-- One loop iteration of `generate_transactions`: fault-or-valid choice
for index `i` (`should_create_invalid_record()` is the Boolean draw
`faulted i`). -/
def record_factory (base : ℤ) (dateStr : String) (faulted : ℕ → Bool)
    (faultKind : ℕ → FaultKind) (draws : ℕ → Draws) (i : ℕ) : Transaction :=
  if faulted i then create_invalid_transaction i base dateStr (faultKind i) (draws i)
  else create_valid_transaction i base dateStr (draws i)

/-- The list built by the main loop `for i in range(1, N + 1)`. -/
def generated_transactions (N : ℕ) (base : ℤ) (dateStr : String)
    (faulted : ℕ → Bool) (faultKind : ℕ → FaultKind) (draws : ℕ → Draws) :
    List Transaction :=
  (List.range' 1 N).map (record_factory base dateStr faulted faultKind draws)

/-- `int(N * 0.02)`: the exact value of `floor(N * 0.02)` is `N / 50`. -/
def num_duplicates (N : ℕ) : ℕ := N / 50

/-- `generate_transactions()` up to the CSV write: generate `N` records,
then append `num_duplicates N` copies of records picked by the duplicate
draws `dupIdx` (`random.choice(transactions)` gives `dupIdx k < N`). -/
def generate_transactions (N : ℕ) (base : ℤ) (dateStr : String)
    (faulted : ℕ → Bool) (faultKind : ℕ → FaultKind) (draws : ℕ → Draws)
    (dupIdx : ℕ → ℕ) : List Transaction :=
  generated_transactions N base dateStr faulted faultKind draws ++
    (List.range (num_duplicates N)).map
      (fun k =>
        (generated_transactions N base dateStr faulted faultKind draws).getD
          (dupIdx k) default)

/-! ### The valid-record invariants -/

def validId (t : Transaction) : Prop := t.transaction_id ≠ ""

def validAccount (t : Transaction) : Prop := t.account_id ≠ ""

def validTimestamp (base : ℤ) (t : Transaction) : Prop := t.timestamp ≤ base

def validAmount (t : Transaction) : Prop := 0 < t.amount

def validCurrency (t : Transaction) : Prop := t.currency ∈ CURRENCIES

/-- The five invariants of a valid record, indexed. -/
def invariant (base : ℤ) (t : Transaction) : Fin 5 → Prop
  | 0 => validId t
  | 1 => validAccount t
  | 2 => validTimestamp base t
  | 3 => validAmount t
  | 4 => validCurrency t

/-- Which invariant each fault kind targets. -/
def faultTarget : FaultKind → Fin 5
  | .missing_id => 0
  | .missing_account => 1
  | .future_date => 2
  | .negative_amount => 3
  | .invalid_currency => 4

/-! ### Helper lemmas: list indexing -/

theorem getD_mem_of_lt {α : Type} (l : List α) (i : ℕ) (d : α)
    (h : i < l.length) : l.getD i d ∈ l := by
  rw [List.getD_eq_getElem l d h]
  exact List.getElem_mem h

/-! ### Helper lemmas: decimal strings -/

/-- Numeric value of a digit character, `ord(c) - 48`. -/
def charVal (c : Char) : ℕ := c.toNat - 48

/-- Numeric value of a most-significant-first digit string. -/
def digitsVal (l : List Char) : ℕ :=
  l.foldl (fun acc c => 10 * acc + charVal c) 0

theorem charVal_digitChar {d : ℕ} (h : d < 10) : charVal (digitChar d) = d := by
  interval_cases d <;> decide

theorem digitsVal_digitsAux :
    ∀ fuel n, n < fuel → digitsVal (digitsAux fuel n) = n := by
  intro fuel
  induction fuel with
  | zero => intro n h; omega
  | succ fuel ih =>
    intro n h
    by_cases h10 : n < 10
    · show digitsVal (digitsAux (fuel + 1) n) = n
      rw [digitsAux, if_pos h10]
      show 10 * 0 + charVal (digitChar n) = n
      rw [charVal_digitChar h10]
      omega
    · show digitsVal (digitsAux (fuel + 1) n) = n
      rw [digitsAux, if_neg h10]
      unfold digitsVal
      rw [List.foldl_append]
      have hrec : digitsVal (digitsAux fuel (n / 10)) = n / 10 :=
        ih (n / 10) (by omega)
      unfold digitsVal at hrec
      rw [hrec]
      show 10 * (n / 10) + charVal (digitChar (n % 10)) = n
      rw [charVal_digitChar (Nat.mod_lt n (by omega))]
      omega

theorem natStr_val (n : ℕ) : digitsVal (natStr n) = n :=
  digitsVal_digitsAux (n + 1) n (Nat.lt_succ_self n)

theorem natStr_injective : Function.Injective natStr := by
  intro a b h
  have hv := congrArg digitsVal h
  rwa [natStr_val, natStr_val] at hv

theorem digitsAux_head_ne_zero :
    ∀ fuel n, n < fuel → 1 ≤ n →
      ∃ c t, digitsAux fuel n = c :: t ∧ c ≠ '0' := by
  intro fuel
  induction fuel with
  | zero => intro n h; omega
  | succ fuel ih =>
    intro n h h1
    by_cases h10 : n < 10
    · refine ⟨digitChar n, [], ?_, ?_⟩
      · rw [digitsAux, if_pos h10]
      · interval_cases n <;> decide
    · obtain ⟨c, t, hct, hc⟩ := ih (n / 10) (by omega) (by omega)
      refine ⟨c, t ++ [digitChar (n % 10)], ?_, hc⟩
      rw [digitsAux, if_neg h10, hct]
      rfl

theorem natStr_head_ne_zero {n : ℕ} (h : 1 ≤ n) :
    ∃ c t, natStr n = c :: t ∧ c ≠ '0' :=
  digitsAux_head_ne_zero (n + 1) n (Nat.lt_succ_self n) h

/-- Strip the zero-padding that `zfill` adds. -/
def unpad (l : List Char) : List Char := l.dropWhile (fun c => c == '0')

theorem dropWhile_replicate_append (p : Char → Bool) (k : ℕ) (a : Char)
    (l : List Char) (ha : p a = true) :
    List.dropWhile p (List.replicate k a ++ l) = List.dropWhile p l := by
  induction k with
  | zero => simp
  | succ k ih =>
    rw [List.replicate_succ, List.cons_append, List.dropWhile_cons, if_pos ha, ih]

theorem unpad_zfill (w : ℕ) {l : List Char} {c : Char} {t : List Char}
    (hl : l = c :: t) (hc : c ≠ '0') : unpad (zfill w l) = l := by
  unfold unpad zfill
  rw [dropWhile_replicate_append (fun c => c == '0') _ '0' _ (by simp), hl,
      List.dropWhile_cons]
  simp [hc]

theorem zfill_natStr_injective {w i j : ℕ} (hi : 1 ≤ i) (hj : 1 ≤ j)
    (h : zfill w (natStr i) = zfill w (natStr j)) : i = j := by
  obtain ⟨c, t, hct, hc⟩ := natStr_head_ne_zero hi
  obtain ⟨e, q, heq, he⟩ := natStr_head_ne_zero hj
  have hu := congrArg unpad h
  rw [unpad_zfill w hct hc, unpad_zfill w heq he] at hu
  exact natStr_injective hu

/-! ### Helper lemmas: transaction ids and enumerations -/

theorem generate_transaction_id_data (dateStr : String) (i : ℕ) :
    (generate_transaction_id dateStr i).data =
      'T' :: 'X' :: 'N' :: (dateStr.data ++ zfill 8 (natStr i)) := by
  have h3 : ("TXN" : String).data = ['T', 'X', 'N'] := rfl
  unfold generate_transaction_id
  rw [String.data_append, String.data_append, h3]
  rfl

theorem generate_transaction_id_ne_empty (dateStr : String) (i : ℕ) :
    generate_transaction_id dateStr i ≠ "" := by
  intro h
  have hd := congrArg String.data h
  rw [generate_transaction_id_data] at hd
  simp at hd

theorem generate_transaction_id_injective (dateStr : String) {i j : ℕ}
    (hi : 1 ≤ i) (hj : 1 ≤ j) (hij : i ≠ j) :
    generate_transaction_id dateStr i ≠ generate_transaction_id dateStr j := by
  intro h
  apply hij
  have hd := congrArg String.data h
  rw [generate_transaction_id_data, generate_transaction_id_data] at hd
  simp only [List.cons.injEq, true_and] at hd
  exact zfill_natStr_injective hi hj (List.append_cancel_left hd)

theorem ACCOUNT_IDS_mem_ne_empty : ∀ s ∈ ACCOUNT_IDS, s ≠ "" := by
  intro s hs
  obtain ⟨n, hn, rfl⟩ := List.mem_map.mp hs
  intro h
  have hd := congrArg String.data h
  have h3 : ("ACC" : String).data = ['A', 'C', 'C'] := rfl
  rw [String.data_append, h3] at hd
  simp at hd

theorem ACCOUNT_IDS_length : ACCOUNT_IDS.length = 500 := by
  simp [ACCOUNT_IDS]

theorem ACCOUNT_IDS_getD_ne_empty {i : ℕ} (h : i < 500) :
    ACCOUNT_IDS.getD i "" ≠ "" :=
  ACCOUNT_IDS_mem_ne_empty _
    (getD_mem_of_lt _ _ _ (by rwa [ACCOUNT_IDS_length]))

theorem CURRENCIES_getD_mem {i : ℕ} (h : i < 5) :
    CURRENCIES.getD i "" ∈ CURRENCIES :=
  getD_mem_of_lt _ _ _ (by simpa [CURRENCIES] using h)

theorem XXX_not_mem_CURRENCIES : "XXX" ∉ CURRENCIES := by
  decide

/-! ### Helper lemmas: rounding and amounts -/

theorem round2_le {v : ℚ} {c : ℤ} (h : v ≤ c) : round2 v ≤ c := by
  unfold round2
  rw [div_le_iff (by norm_num : (0 : ℚ) < 100)]
  have hlt : (100 : ℚ) * v + 1 / 2 < ((100 * c + 1 : ℤ) : ℚ) := by
    push_cast
    linarith
  have h1 : round (100 * v) ≤ 100 * c := by
    rw [round_eq]
    exact Int.lt_add_one_iff.mp (Int.floor_lt.mpr hlt)
  calc ((round (100 * v) : ℤ) : ℚ) ≤ ((100 * c : ℤ) : ℚ) := by exact_mod_cast h1
    _ = (c : ℚ) * 100 := by push_cast; ring

theorem le_round2 {v : ℚ} {c : ℤ} (h : (c : ℚ) ≤ v) : (c : ℚ) ≤ round2 v := by
  unfold round2
  rw [le_div_iff (by norm_num : (0 : ℚ) < 100)]
  have h1 : 100 * c ≤ round (100 * v) := by
    rw [round_eq]
    apply Int.le_floor.mpr
    push_cast
    linarith
  calc (c : ℚ) * 100 = ((100 * c : ℤ) : ℚ) := by push_cast; ring
    _ ≤ ((round (100 * v) : ℤ) : ℚ) := by exact_mod_cast h1

theorem uniform_mem {l h r : ℚ} (hlh : l ≤ h) (hr0 : 0 ≤ r) (hr1 : r < 1) :
    l ≤ uniform l h r ∧ uniform l h r ≤ h := by
  unfold uniform
  constructor
  · nlinarith
  · nlinarith

theorem generate_amount_tier1 {u r : ℚ} (hu : u < 7 / 10)
    (hr0 : 0 ≤ r) (hr1 : r < 1) :
    10 ≤ generate_amount u r ∧ generate_amount u r ≤ 1000 := by
  unfold generate_amount
  rw [if_pos hu]
  obtain ⟨h1, h2⟩ := uniform_mem (by norm_num : (10 : ℚ) ≤ 1000) hr0 hr1
  constructor
  · exact_mod_cast le_round2 (c := 10) (by exact_mod_cast h1)
  · exact_mod_cast round2_le (c := 1000) (by exact_mod_cast h2)

theorem generate_amount_tier2 {u r : ℚ} (hu1 : ¬u < 7 / 10) (hu2 : u < 9 / 10)
    (hr0 : 0 ≤ r) (hr1 : r < 1) :
    1000 ≤ generate_amount u r ∧ generate_amount u r ≤ 10000 := by
  unfold generate_amount
  rw [if_neg hu1, if_pos hu2]
  obtain ⟨h1, h2⟩ := uniform_mem (by norm_num : (1000 : ℚ) ≤ 10000) hr0 hr1
  constructor
  · exact_mod_cast le_round2 (c := 1000) (by exact_mod_cast h1)
  · exact_mod_cast round2_le (c := 10000) (by exact_mod_cast h2)

theorem generate_amount_tier3 {u r : ℚ} (hu1 : ¬u < 7 / 10) (hu2 : ¬u < 9 / 10)
    (hr0 : 0 ≤ r) (hr1 : r < 1) :
    10000 ≤ generate_amount u r ∧ generate_amount u r ≤ 100000 := by
  unfold generate_amount
  rw [if_neg hu1, if_neg hu2]
  obtain ⟨h1, h2⟩ := uniform_mem (by norm_num : (10000 : ℚ) ≤ 100000) hr0 hr1
  constructor
  · exact_mod_cast le_round2 (c := 10000) (by exact_mod_cast h1)
  · exact_mod_cast round2_le (c := 100000) (by exact_mod_cast h2)

theorem generate_amount_bounds {u r : ℚ} (hr0 : 0 ≤ r) (hr1 : r < 1) :
    10 ≤ generate_amount u r ∧ generate_amount u r ≤ 100000 := by
  by_cases hu1 : u < 7 / 10
  · obtain ⟨h1, h2⟩ := generate_amount_tier1 hu1 hr0 hr1
    constructor <;> linarith
  · by_cases hu2 : u < 9 / 10
    · obtain ⟨h1, h2⟩ := generate_amount_tier2 hu1 hu2 hr0 hr1
      constructor <;> linarith
    · obtain ⟨h1, h2⟩ := generate_amount_tier3 hu1 hu2 hr0 hr1
      constructor <;> linarith

theorem generate_amount_pos {u r : ℚ} (hr0 : 0 ≤ r) (hr1 : r < 1) :
    0 < generate_amount u r := by
  have := (generate_amount_bounds (u := u) hr0 hr1).1
  linarith

theorem generate_timestamp_le (base : ℤ) (w d h m s : ℕ) :
    generate_timestamp base w d h m s ≤ base := by
  unfold generate_timestamp
  omega

theorem generated_transactions_length (N : ℕ) (base : ℤ) (dateStr : String)
    (faulted : ℕ → Bool) (faultKind : ℕ → FaultKind) (draws : ℕ → Draws) :
    (generated_transactions N base dateStr faulted faultKind draws).length = N := by
  simp [generated_transactions]

/-- A fixed bundle of draws, all within the sampling contracts; used to
instantiate theorems on concrete inputs. -/
def sampleDraws : Draws :=
  ⟨0, 0, 0, 0, 0, 0, 0, 0, 0, 0, 0, 0, 1⟩

/-! ## The claims -/

/-- C5: the timestamp produced by `generate_timestamp` equals the base
moment minus the offset built from the day draw `d ∈ [0, w]` and the
hour/minute/second draws, and in particular is never later than the base
moment. -/
theorem generate_timestamp_spec (base : ℤ) (w d h m s : ℕ)
    (hd : d ≤ w) (hh : h ≤ 23) (hm : m ≤ 59) (hs : s ≤ 59) :
    generate_timestamp base w d h m s =
      base - (d * 86400 + h * 3600 + m * 60 + s) ∧
    generate_timestamp base w d h m s ≤ base :=
  ⟨rfl, generate_timestamp_le base w d h m s⟩

/-- Witness for C5 at a concrete base moment and concrete draws. -/
theorem generate_timestamp_spec_witness :
    generate_timestamp 1000000 90 3 12 30 45 =
      1000000 - (3 * 86400 + 12 * 3600 + 30 * 60 + 45) ∧
    generate_timestamp 1000000 90 3 12 30 45 ≤ 1000000 :=
  generate_timestamp_spec 1000000 90 3 12 30 45 (by decide) (by decide)
    (by decide) (by decide)

/-- C6: a `future_date`-faulted record carries the timestamp
`base + days * 86400` with the day draw in `[1, 30]`, so it is strictly
after the base moment and at most 30 days after it. -/
theorem future_date_fault_offset (index : ℕ) (base : ℤ) (dateStr : String)
    (d : Draws) (h1 : 1 ≤ d.futureDays) (h2 : d.futureDays ≤ 30) :
    (create_invalid_transaction index base dateStr .future_date d).timestamp
        = base + d.futureDays * 86400 ∧
    base < (create_invalid_transaction index base dateStr .future_date d).timestamp ∧
    (create_invalid_transaction index base dateStr .future_date d).timestamp
        ≤ base + 30 * 86400 := by
  refine ⟨rfl, ?_, ?_⟩
  · show base < base + (d.futureDays : ℤ) * 86400
    have : (1 : ℤ) ≤ d.futureDays := by exact_mod_cast h1
    nlinarith
  · show base + (d.futureDays : ℤ) * 86400 ≤ base + 30 * 86400
    have : (d.futureDays : ℤ) ≤ 30 := by exact_mod_cast h2
    nlinarith

/-- Witness for C6 at concrete inputs and a day draw of 7. -/
theorem future_date_fault_offset_witness :
    (create_invalid_transaction 1 0 "20250101" .future_date
        ⟨0, 0, 0, 0, 0, 0, 0, 0, 0, 0, 0, 0, 7⟩).timestamp = 0 + 7 * 86400 ∧
    0 < (create_invalid_transaction 1 0 "20250101" .future_date
        ⟨0, 0, 0, 0, 0, 0, 0, 0, 0, 0, 0, 0, 7⟩).timestamp ∧
    (create_invalid_transaction 1 0 "20250101" .future_date
        ⟨0, 0, 0, 0, 0, 0, 0, 0, 0, 0, 0, 0, 7⟩).timestamp ≤ 0 + 30 * 86400 :=
  future_date_fault_offset 1 0 "20250101" ⟨0, 0, 0, 0, 0, 0, 0, 0, 0, 0, 0, 0, 7⟩
    (by decide) (by decide)

/-- C7: `generate_transaction_id` is the pure function
`prefixed date ++ zero-padded index`; on the same date, distinct positive
indices give distinct, non-empty identifiers. -/
theorem generate_transaction_id_spec (dateStr : String) (i j : ℕ)
    (hi : 0 < i) (hj : 0 < j) (hij : i ≠ j) :
    generate_transaction_id dateStr i =
      "TXN" ++ dateStr ++ String.mk (zfill 8 (natStr i)) ∧
    generate_transaction_id dateStr i ≠ "" ∧
    generate_transaction_id dateStr i ≠ generate_transaction_id dateStr j :=
  ⟨rfl, generate_transaction_id_ne_empty dateStr i,
    generate_transaction_id_injective dateStr hi hj hij⟩

/-- Witness for C7 on the date string `20251012` with indices 1 and 2. -/
theorem generate_transaction_id_spec_witness :
    generate_transaction_id "20251012" 1 =
      "TXN" ++ "20251012" ++ String.mk (zfill 8 (natStr 1)) ∧
    generate_transaction_id "20251012" 1 ≠ "" ∧
    generate_transaction_id "20251012" 1 ≠ generate_transaction_id "20251012" 2 :=
  generate_transaction_id_spec "20251012" 1 2 (by decide) (by decide) (by decide)

/-- C2: for every total record count `N`, exactly `⌊N * 0.02⌋` duplicates
are appended (a deterministic count) and the final sequence length is
`N + ⌊N * 0.02⌋`. -/
theorem duplicate_count_exact (N : ℕ) (base : ℤ) (dateStr : String)
    (faulted : ℕ → Bool) (faultKind : ℕ → FaultKind) (draws : ℕ → Draws)
    (dupIdx : ℕ → ℕ) :
    (generate_transactions N base dateStr faulted faultKind draws dupIdx).length
        = N + num_duplicates N ∧
    num_duplicates N = Nat.floor ((N : ℚ) * (2 / 100)) := by
  constructor
  · unfold generate_transactions
    rw [List.length_append, generated_transactions_length, List.length_map,
      List.length_range]
  · unfold num_duplicates
    have hq : (N : ℚ) * (2 / 100) = (N : ℚ) / ((50 : ℕ) : ℚ) := by
      push_cast
      ring
    rw [hq, Nat.floor_div_nat, Nat.floor_natCast]

/-- C9: the first `N` elements of the final sequence are exactly the
records produced by the record factory for `i = 1..N`, in generation
order; appending duplicates leaves them unchanged. -/
theorem first_records_frame (N : ℕ) (base : ℤ) (dateStr : String)
    (faulted : ℕ → Bool) (faultKind : ℕ → FaultKind) (draws : ℕ → Draws)
    (dupIdx : ℕ → ℕ) :
    (generate_transactions N base dateStr faulted faultKind draws dupIdx).take N
      = (List.range' 1 N).map (record_factory base dateStr faulted faultKind draws) := by
  unfold generate_transactions
  have h := List.take_left
    (generated_transactions N base dateStr faulted faultKind draws)
    ((List.range (num_duplicates N)).map
      (fun k =>
        (generated_transactions N base dateStr faulted faultKind draws).getD
          (dupIdx k) default))
  rw [generated_transactions_length] at h
  exact h.trans rfl

/-- C3: every record produced by `create_valid_transaction` satisfies the
five valid-record invariants, and its nine fields are populated from the
closed enumerations. -/
theorem create_valid_transaction_spec (index : ℕ) (base : ℤ) (dateStr : String)
    (d : Draws) (hd : d.Ok) :
    validId (create_valid_transaction index base dateStr d) ∧
    validAccount (create_valid_transaction index base dateStr d) ∧
    validTimestamp base (create_valid_transaction index base dateStr d) ∧
    validAmount (create_valid_transaction index base dateStr d) ∧
    validCurrency (create_valid_transaction index base dateStr d) ∧
    (create_valid_transaction index base dateStr d).account_id ∈ ACCOUNT_IDS ∧
    (create_valid_transaction index base dateStr d).type ∈ TRANSACTION_TYPES ∧
    (create_valid_transaction index base dateStr d).category ∈ CATEGORIES ∧
    (create_valid_transaction index base dateStr d).description ∈ DESCRIPTIONS ∧
    (create_valid_transaction index base dateStr d).status ∈ STATUSES := by
  obtain ⟨h1, h2, h3, h4, h5, hu0, hu1, hr0, hr1, h10, h11, h12, h13, h14, h15, h16⟩ := hd
  refine ⟨?_, ?_, ?_, ?_, ?_, ?_, ?_, ?_, ?_, ?_⟩
  · exact generate_transaction_id_ne_empty dateStr index
  · exact ACCOUNT_IDS_getD_ne_empty h1
  · exact generate_timestamp_le base 90 d.tsDays d.tsHours d.tsMinutes d.tsSeconds
  · exact generate_amount_pos hr0 hr1
  · exact CURRENCIES_getD_mem h10
  · exact getD_mem_of_lt _ _ _ (by rwa [ACCOUNT_IDS_length])
  · exact getD_mem_of_lt _ _ _ (by simpa [TRANSACTION_TYPES] using h11)
  · exact getD_mem_of_lt _ _ _ (by simpa [CATEGORIES] using h12)
  · exact getD_mem_of_lt _ _ _ (by simpa [DESCRIPTIONS] using h13)
  · exact getD_mem_of_lt _ _ _ (by simpa [STATUSES] using h14)

/-- Witness for C3 on concrete inputs and in-contract draws. -/
theorem create_valid_transaction_spec_witness :
    validId (create_valid_transaction 1 0 "20250101" sampleDraws) ∧
    validAccount (create_valid_transaction 1 0 "20250101" sampleDraws) ∧
    validTimestamp 0 (create_valid_transaction 1 0 "20250101" sampleDraws) ∧
    validAmount (create_valid_transaction 1 0 "20250101" sampleDraws) ∧
    validCurrency (create_valid_transaction 1 0 "20250101" sampleDraws) ∧
    (create_valid_transaction 1 0 "20250101" sampleDraws).account_id ∈ ACCOUNT_IDS ∧
    (create_valid_transaction 1 0 "20250101" sampleDraws).type ∈ TRANSACTION_TYPES ∧
    (create_valid_transaction 1 0 "20250101" sampleDraws).category ∈ CATEGORIES ∧
    (create_valid_transaction 1 0 "20250101" sampleDraws).description ∈ DESCRIPTIONS ∧
    (create_valid_transaction 1 0 "20250101" sampleDraws).status ∈ STATUSES :=
  create_valid_transaction_spec 1 0 "20250101" sampleDraws (by decide)

/-- C1: a record built by `create_invalid_transaction` violates exactly the
invariant targeted by its fault kind and satisfies the other four; the
never-faulted fields are populated from the closed enumerations. -/
theorem single_fault_exclusivity (index : ℕ) (base : ℤ) (dateStr : String)
    (fk : FaultKind) (d : Draws) (hd : d.Ok) :
    (∀ k : Fin 5,
        invariant base (create_invalid_transaction index base dateStr fk d) k
          ↔ k ≠ faultTarget fk) ∧
    (create_invalid_transaction index base dateStr fk d).type ∈ TRANSACTION_TYPES ∧
    (create_invalid_transaction index base dateStr fk d).category ∈ CATEGORIES ∧
    (create_invalid_transaction index base dateStr fk d).description ∈ DESCRIPTIONS ∧
    (create_invalid_transaction index base dateStr fk d).status ∈ STATUSES := by
  obtain ⟨h1, h2, h3, h4, h5, hu0, hu1, hr0, hr1, h10, h11, h12, h13, h14, h15, h16⟩ := hd
  have hid : generate_transaction_id dateStr index ≠ "" :=
    generate_transaction_id_ne_empty dateStr index
  have hacc : ACCOUNT_IDS.getD d.accountIdx "" ≠ "" := ACCOUNT_IDS_getD_ne_empty h1
  have hts : generate_timestamp base 90 d.tsDays d.tsHours d.tsMinutes d.tsSeconds ≤ base :=
    generate_timestamp_le base 90 d.tsDays d.tsHours d.tsMinutes d.tsSeconds
  have hamt : 0 < generate_amount d.amountU d.amountR := generate_amount_pos hr0 hr1
  have hcur : CURRENCIES.getD d.currencyIdx "" ∈ CURRENCIES := CURRENCIES_getD_mem h10
  have hfd : (1 : ℤ) ≤ d.futureDays := by exact_mod_cast h15
  cases fk with
  | missing_id =>
    refine ⟨?_, getD_mem_of_lt _ _ _ (by simpa [TRANSACTION_TYPES] using h11),
      getD_mem_of_lt _ _ _ (by simpa [CATEGORIES] using h12),
      getD_mem_of_lt _ _ _ (by simpa [DESCRIPTIONS] using h13),
      getD_mem_of_lt _ _ _ (by simpa [STATUSES] using h14)⟩
    intro k
    fin_cases k
    · exact iff_of_false (fun hcon => hcon rfl) (by decide)
    · exact iff_of_true hacc (by decide)
    · exact iff_of_true hts (by decide)
    · exact iff_of_true hamt (by decide)
    · exact iff_of_true hcur (by decide)
  | negative_amount =>
    refine ⟨?_, getD_mem_of_lt _ _ _ (by simpa [TRANSACTION_TYPES] using h11),
      getD_mem_of_lt _ _ _ (by simpa [CATEGORIES] using h12),
      getD_mem_of_lt _ _ _ (by simpa [DESCRIPTIONS] using h13),
      getD_mem_of_lt _ _ _ (by simpa [STATUSES] using h14)⟩
    intro k
    fin_cases k
    · exact iff_of_true hid (by decide)
    · exact iff_of_true hacc (by decide)
    · exact iff_of_true hts (by decide)
    · exact iff_of_false (fun hcon => hamt.not_lt (neg_pos.mp hcon)) (by decide)
    · exact iff_of_true hcur (by decide)
  | future_date =>
    refine ⟨?_, getD_mem_of_lt _ _ _ (by simpa [TRANSACTION_TYPES] using h11),
      getD_mem_of_lt _ _ _ (by simpa [CATEGORIES] using h12),
      getD_mem_of_lt _ _ _ (by simpa [DESCRIPTIONS] using h13),
      getD_mem_of_lt _ _ _ (by simpa [STATUSES] using h14)⟩
    intro k
    fin_cases k
    · exact iff_of_true hid (by decide)
    · exact iff_of_true hacc (by decide)
    · refine iff_of_false (fun hcon => ?_) (by decide)
      have hle : base + (d.futureDays : ℤ) * 86400 ≤ base := hcon
      nlinarith
    · exact iff_of_true hamt (by decide)
    · exact iff_of_true hcur (by decide)
  | invalid_currency =>
    refine ⟨?_, getD_mem_of_lt _ _ _ (by simpa [TRANSACTION_TYPES] using h11),
      getD_mem_of_lt _ _ _ (by simpa [CATEGORIES] using h12),
      getD_mem_of_lt _ _ _ (by simpa [DESCRIPTIONS] using h13),
      getD_mem_of_lt _ _ _ (by simpa [STATUSES] using h14)⟩
    intro k
    fin_cases k
    · exact iff_of_true hid (by decide)
    · exact iff_of_true hacc (by decide)
    · exact iff_of_true hts (by decide)
    · exact iff_of_true hamt (by decide)
    · exact iff_of_false XXX_not_mem_CURRENCIES (by decide)
  | missing_account =>
    refine ⟨?_, getD_mem_of_lt _ _ _ (by simpa [TRANSACTION_TYPES] using h11),
      getD_mem_of_lt _ _ _ (by simpa [CATEGORIES] using h12),
      getD_mem_of_lt _ _ _ (by simpa [DESCRIPTIONS] using h13),
      getD_mem_of_lt _ _ _ (by simpa [STATUSES] using h14)⟩
    intro k
    fin_cases k
    · exact iff_of_true hid (by decide)
    · exact iff_of_false (fun hcon => hcon rfl) (by decide)
    · exact iff_of_true hts (by decide)
    · exact iff_of_true hamt (by decide)
    · exact iff_of_true hcur (by decide)

/-- Witness for C1 with the `missing_id` fault kind on concrete inputs. -/
theorem single_fault_exclusivity_witness :
    (∀ k : Fin 5,
        invariant 0 (create_invalid_transaction 1 0 "20250101" .missing_id sampleDraws) k
          ↔ k ≠ faultTarget .missing_id) ∧
    (create_invalid_transaction 1 0 "20250101" .missing_id sampleDraws).type ∈ TRANSACTION_TYPES ∧
    (create_invalid_transaction 1 0 "20250101" .missing_id sampleDraws).category ∈ CATEGORIES ∧
    (create_invalid_transaction 1 0 "20250101" .missing_id sampleDraws).description ∈ DESCRIPTIONS ∧
    (create_invalid_transaction 1 0 "20250101" .missing_id sampleDraws).status ∈ STATUSES :=
  single_fault_exclusivity 1 0 "20250101" .missing_id sampleDraws (by decide)

/-- C8: every appended duplicate is field-for-field equal to the record at
the drawn position among the first `N` records of the final sequence. -/
theorem duplicates_copy_generated (N : ℕ) (base : ℤ) (dateStr : String)
    (faulted : ℕ → Bool) (faultKind : ℕ → FaultKind) (draws : ℕ → Draws)
    (dupIdx : ℕ → ℕ) (hdup : ∀ k, dupIdx k < N) :
    ∀ k < num_duplicates N, ∃ j < N,
      (generate_transactions N base dateStr faulted faultKind draws dupIdx).getD
          (N + k) default
        = (generate_transactions N base dateStr faulted faultKind draws dupIdx).getD
          j default := by
  intro k hk
  refine ⟨dupIdx k, hdup k, ?_⟩
  have hlen := generated_transactions_length N base dateStr faulted faultKind draws
  unfold generate_transactions
  have hright := List.getD_append_right
    (generated_transactions N base dateStr faulted faultKind draws)
    ((List.range (num_duplicates N)).map
      (fun j =>
        (generated_transactions N base dateStr faulted faultKind draws).getD
          (dupIdx j) default))
    default (N + k) (by rw [hlen]; omega)
  have hleft := List.getD_append
    (generated_transactions N base dateStr faulted faultKind draws)
    ((List.range (num_duplicates N)).map
      (fun j =>
        (generated_transactions N base dateStr faulted faultKind draws).getD
          (dupIdx j) default))
    default (dupIdx k) (by rw [hlen]; exact hdup k)
  rw [hright, hleft, hlen]
  have hsub : N + k - N = k := by omega
  rw [hsub]
  have hkd : k < ((List.range (num_duplicates N)).map
      (fun j =>
        (generated_transactions N base dateStr faulted faultKind draws).getD
          (dupIdx j) default)).length := by
    simpa using hk
  rw [List.getD_eq_getElem _ default hkd, List.getElem_map]
  simp

/-- Witness for C8 with 50 generated records (so exactly one duplicate,
at position 50) and all duplicate draws picking position 0. -/
theorem duplicates_copy_generated_witness :
    ∃ j < 50,
      (generate_transactions 50 0 "20250101" (fun _ => false)
          (fun _ => .missing_id) (fun _ => sampleDraws) (fun _ => 0)).getD
          (50 + 0) default
        = (generate_transactions 50 0 "20250101" (fun _ => false)
          (fun _ => .missing_id) (fun _ => sampleDraws) (fun _ => 0)).getD
          j default :=
  duplicates_copy_generated 50 0 "20250101" (fun _ => false)
    (fun _ => .missing_id) (fun _ => sampleDraws) (fun _ => 0)
    (by intro k; show (0 : ℕ) < 50; decide) 0 (by decide)

/-- Amount magnitude of a single factory-produced record. -/
theorem record_factory_amount (base : ℤ) (dateStr : String)
    (faulted : ℕ → Bool) (faultKind : ℕ → FaultKind) (draws : ℕ → Draws)
    (i : ℕ) (hok : (draws i).Ok) :
    10 ≤ |(record_factory base dateStr faulted faultKind draws i).amount| ∧
    |(record_factory base dateStr faulted faultKind draws i).amount| ≤ 100000 := by
  obtain ⟨h1, h2, h3, h4, h5, hu0, hu1, hr0, hr1, h10, h11, h12, h13, h14, h15, h16⟩ := hok
  have hb := generate_amount_bounds (u := (draws i).amountU) hr0 hr1
  have habs : |generate_amount (draws i).amountU (draws i).amountR|
      = generate_amount (draws i).amountU (draws i).amountR :=
    abs_of_nonneg (by linarith [hb.1])
  unfold record_factory
  by_cases hf : faulted i
  · rw [if_pos hf]
    cases faultKind i with
    | missing_id =>
      show 10 ≤ |generate_amount (draws i).amountU (draws i).amountR| ∧
        |generate_amount (draws i).amountU (draws i).amountR| ≤ 100000
      rw [habs]
      exact hb
    | negative_amount =>
      show 10 ≤ |-generate_amount (draws i).amountU (draws i).amountR| ∧
        |-generate_amount (draws i).amountU (draws i).amountR| ≤ 100000
      rw [abs_neg, habs]
      exact hb
    | future_date =>
      show 10 ≤ |generate_amount (draws i).amountU (draws i).amountR| ∧
        |generate_amount (draws i).amountU (draws i).amountR| ≤ 100000
      rw [habs]
      exact hb
    | invalid_currency =>
      show 10 ≤ |generate_amount (draws i).amountU (draws i).amountR| ∧
        |generate_amount (draws i).amountU (draws i).amountR| ≤ 100000
      rw [habs]
      exact hb
    | missing_account =>
      show 10 ≤ |generate_amount (draws i).amountU (draws i).amountR| ∧
        |generate_amount (draws i).amountU (draws i).amountR| ≤ 100000
      rw [habs]
      exact hb
  · rw [if_neg hf]
    show 10 ≤ |generate_amount (draws i).amountU (draws i).amountR| ∧
      |generate_amount (draws i).amountU (draws i).amountR| ≤ 100000
    rw [habs]
    exact hb

/-- C10: every record of the final dataset, valid or faulted, carries an
amount whose absolute value lies between 10 and 100000 inclusive. -/
theorem amount_magnitude_bound (N : ℕ) (base : ℤ) (dateStr : String)
    (faulted : ℕ → Bool) (faultKind : ℕ → FaultKind) (draws : ℕ → Draws)
    (dupIdx : ℕ → ℕ) (hok : ∀ i, (draws i).Ok) (hdup : ∀ k, dupIdx k < N) :
    ∀ t ∈ generate_transactions N base dateStr faulted faultKind draws dupIdx,
      10 ≤ |t.amount| ∧ |t.amount| ≤ 100000 := by
  have hgen : ∀ t ∈ generated_transactions N base dateStr faulted faultKind draws,
      10 ≤ |t.amount| ∧ |t.amount| ≤ 100000 := by
    intro t ht
    obtain ⟨i, hi, rfl⟩ := List.mem_map.mp ht
    exact record_factory_amount base dateStr faulted faultKind draws i (hok i)
  intro t ht
  unfold generate_transactions at ht
  rcases List.mem_append.mp ht with hmem | hmem
  · exact hgen t hmem
  · obtain ⟨j, hj, rfl⟩ := List.mem_map.mp hmem
    refine hgen _ (getD_mem_of_lt _ _ _ ?_)
    rw [generated_transactions_length]
    exact hdup j

/-- Witness for C10: the single generated record of a one-record run has
an amount of magnitude between 10 and 100000. -/
theorem amount_magnitude_bound_witness :
    10 ≤ |(record_factory 0 "20250101" (fun _ => false)
        (fun _ => .missing_id) (fun _ => sampleDraws) 1).amount| ∧
    |(record_factory 0 "20250101" (fun _ => false)
        (fun _ => .missing_id) (fun _ => sampleDraws) 1).amount| ≤ 100000 :=
  amount_magnitude_bound 1 0 "20250101" (fun _ => false)
    (fun _ => .missing_id) (fun _ => sampleDraws) (fun _ => 0)
    (by intro i; show sampleDraws.Ok; decide)
    (by intro k; show (0 : ℕ) < 1; decide)
    (record_factory 0 "20250101" (fun _ => false)
      (fun _ => .missing_id) (fun _ => sampleDraws) 1)
    (by
      unfold generate_transactions generated_transactions
      simp [List.range'])

/-- Counterexample to C4 as stated: with tier draw `u = 1/2 ∈ [0, 0.7)` and
in-tier unit draw `r = 247499/247500 ∈ [0, 1)`, the raw uniform value is
`999.996`; rounding to 2 decimal places yields `1000.00`, so the returned
amount is `1000`, which does not lie in the half-open range `[10, 1000)`. -/
theorem amount_tier_counterexample :
    (0 : ℚ) ≤ 1 / 2 ∧ (1 / 2 : ℚ) < 7 / 10 ∧
    (0 : ℚ) ≤ 247499 / 247500 ∧ (247499 / 247500 : ℚ) < 1 ∧
    generate_amount (1 / 2) (247499 / 247500) = 1000 ∧
    ¬generate_amount (1 / 2) (247499 / 247500) < 1000 := by
  have hval : generate_amount (1 / 2) (247499 / 247500) = 1000 := by
    unfold generate_amount
    rw [if_pos (by norm_num : (1 / 2 : ℚ) < 7 / 10)]
    unfold round2 uniform
    rw [round_eq]
    have hsum : (100 : ℚ) * (10 + (1000 - 10) * (247499 / 247500)) + 1 / 2
        = 1000001 / 10 := by
      norm_num
    rw [hsum]
    have hfl : ⌊(1000001 / 10 : ℚ)⌋ = 100000 := by
      rw [Int.floor_eq_iff]
      constructor
      · norm_num
      · norm_num
    rw [hfl]
    norm_num
  refine ⟨by norm_num, by norm_num, by norm_num, by norm_num, hval, ?_⟩
  rw [hval]
  exact lt_irrefl 1000

/-- C4 (amended): for a tier draw `u ∈ [0, 1)` and in-tier unit draw
`r ∈ [0, 1)`, the amount lies in the closed range `[10, 1000]` when
`u < 0.7`, in `[1000, 10000]` when `0.7 ≤ u < 0.9`, and in
`[10000, 100000]` when `0.9 ≤ u` — the top endpoint is reachable because
rounding to 2 decimal places can round a raw value just below the tier
bound up to the bound itself — and the amount is an integer number of
hundredths. -/
theorem amount_tiers_closed (u r : ℚ) (hu0 : 0 ≤ u) (hu1 : u < 1)
    (hr0 : 0 ≤ r) (hr1 : r < 1) :
    (u < 7 / 10 → 10 ≤ generate_amount u r ∧ generate_amount u r ≤ 1000) ∧
    (7 / 10 ≤ u → u < 9 / 10 →
      1000 ≤ generate_amount u r ∧ generate_amount u r ≤ 10000) ∧
    (9 / 10 ≤ u → 10000 ≤ generate_amount u r ∧ generate_amount u r ≤ 100000) ∧
    ∃ c : ℤ, generate_amount u r = (c : ℚ) / 100 := by
  refine ⟨?_, ?_, ?_, ?_⟩
  · intro hu
    exact generate_amount_tier1 hu hr0 hr1
  · intro hl hu
    exact generate_amount_tier2 (not_lt.mpr hl) hu hr0 hr1
  · intro hl
    exact generate_amount_tier3 (not_lt.mpr (le_trans (by norm_num) hl))
      (not_lt.mpr hl) hr0 hr1
  · unfold generate_amount round2
    split_ifs
    · exact ⟨_, rfl⟩
    · exact ⟨_, rfl⟩
    · exact ⟨_, rfl⟩

/-- Witness for the amended C4 at `u = 1/2`, `r = 0`. -/
theorem amount_tiers_closed_witness :
    ((1 / 2 : ℚ) < 7 / 10 →
      10 ≤ generate_amount (1 / 2) 0 ∧ generate_amount (1 / 2) 0 ≤ 1000) ∧
    ((7 / 10 : ℚ) ≤ 1 / 2 → (1 / 2 : ℚ) < 9 / 10 →
      1000 ≤ generate_amount (1 / 2) 0 ∧ generate_amount (1 / 2) 0 ≤ 10000) ∧
    ((9 / 10 : ℚ) ≤ 1 / 2 →
      10000 ≤ generate_amount (1 / 2) 0 ∧ generate_amount (1 / 2) 0 ≤ 100000) ∧
    ∃ c : ℤ, generate_amount (1 / 2) 0 = (c : ℚ) / 100 :=
  amount_tiers_closed (1 / 2) 0 (by norm_num) (by norm_num) (by norm_num)
    (by norm_num)

end GenerateData
